import Mathlib

/-!
# Verification of the Zipline scraper core (`Zipline_Scrapper.py`)

A shallow embedding of the pure core of `Zipline_Scrapper.py`:

* the attribute-extractor functions `extract_sku_from_title`, `detect_series`,
  `extract_variant_details`;
* the aggregator `ZLineRangeSeriesManager` (`add_variant`, `get_structured_data`);
* the bounded breadth-first traversal `get_all_variants_demo`.

Python strings are modelled as `List Char` (ASCII fragment: `str.strip`,
`str.lower`, `\s` and `\d` of the `re` module are modelled on their ASCII
behaviour, which is all the scraper's fixed patterns exercise).  The browser
automation (`crawl4ai`) is an external collaborator and enters only through an
adapter function from URLs to fetch outcomes.
-/

namespace Zipline

/-- Python strings, modelled as lists of characters. -/
abbrev PyStr := List Char

/-- The character list of a string literal; used to transcribe the Python
string literals appearing in the source. -/
def chars (s : String) : PyStr := s.toList

/-- ASCII whitespace as recognised by Python `str.strip()` and by `\s`
in the `re` module (space, tab, newline, carriage return, vertical tab,
form feed). -/
def isPySpace (c : Char) : Bool :=
  decide (c = ' ' ∨ c = '\t' ∨ c = '\n' ∨ c = '\x0d' ∨ c = '\x0b' ∨ c = '\x0c')

/-- Python `str.strip()` (ASCII whitespace). -/
def pyStrip (s : PyStr) : PyStr :=
  ((s.dropWhile isPySpace).reverse.dropWhile isPySpace).reverse

/-- Python `str.lower()` (ASCII letters). -/
def pyLower (s : PyStr) : PyStr := s.map Char.toLower

/-- `startsWithStr p s` is true when `p` is a leading fragment of `s`. -/
def startsWithStr : PyStr → PyStr → Bool
  | [], _ => true
  | _ :: _, [] => false
  | a :: p, b :: s => a = b && startsWithStr p s

/-- Python's substring test `needle in hay`. -/
def containsStr (needle : PyStr) : PyStr → Bool
  | [] => startsWithStr needle []
  | s@(_ :: rest) => startsWithStr needle s || containsStr needle rest

/-- The character class `[A-Z0-9\-]` of the SKU regex. -/
def isSkuChar (c : Char) : Bool :=
  decide (('A' ≤ c ∧ c ≤ 'Z') ∨ ('0' ≤ c ∧ c ≤ '9') ∨ c = '-')

/-- Helper for `extract_sku_from_title`: given the characters before the
final `)`, reversed, return the SKU if the maximal run of class characters is
non-empty and is immediately preceded by `(` in the original string. -/
def skuCore (rest : PyStr) : PyStr :=
  if (rest.dropWhile isSkuChar).head? = some '(' then
    if rest.takeWhile isSkuChar = [] then [] else (rest.takeWhile isSkuChar).reverse
  else []

/-- Helper for `extract_sku_from_title`: the regex match on the reversed
stripped title, which must start (i.e. the title must end) with `)`. -/
def skuFromRev (r : PyStr) : PyStr :=
  if r.head? = some ')' then skuCore r.tail else []

/-- Embedding of `extract_sku_from_title` (lines 8-13): `re.search` of
`\(([A-Z0-9\-]+)\)$` over `title.strip()`, returning group 1 on a match and
`""` otherwise (`""` as well for a falsy title).  Because `(` and `)` are not
in the bracket class, the regex matches exactly when the stripped title ends
in `)` preceded by a non-empty run of class characters preceded by `(`, and
group 1 is that run; the embedding reads the run off the reversed string. -/
def extract_sku_from_title (title : PyStr) : PyStr :=
  if title = [] then [] else skuFromRev (pyStrip title).reverse

/-- Embedding of `detect_series` (lines 15-25). -/
def detect_series (title : PyStr) : PyStr :=
  let tl := pyLower title
  if containsStr (chars "paramount") tl then chars "paramount"
  else if containsStr (chars "classic") tl then chars "classic"
  else if containsStr (chars "select") tl then chars "select"
  else chars "unknown"

/-- The character class `\d` (ASCII digits). -/
def isDigitChar (c : Char) : Bool := decide ('0' ≤ c ∧ c ≤ '9')

/-- `re.search` of `(\d+)\s*(?:in\.|inch)` (line 32): the leftmost position
carrying a digit run (greedy) followed by optional whitespace and the literal
`in.` or `inch`; the returned group is the digit run.  Scanning restarts one
character later on failure, exactly as `re.search` advances its start
position. -/
def sizeSearch : PyStr → Option PyStr
  | [] => none
  | c :: rest =>
    if isDigitChar c then
      let ds := (c :: rest).takeWhile isDigitChar
      let tail := ((c :: rest).dropWhile isDigitChar).dropWhile isPySpace
      if startsWithStr (chars "in.") tail || startsWithStr (chars "inch") tail then some ds
      else sizeSearch rest
    else sizeSearch rest

/-- The `size` field of `extract_variant_details` (lines 32-33):
`f"{digits} Inch"` on a match, `""` otherwise. -/
def extractSize (title : PyStr) : PyStr :=
  match sizeSearch title with
  | some ds => ds ++ chars " Inch"
  | none => []

/-- The `fuel_type` field (lines 36-41). -/
def fuelTypeOf (title : PyStr) : PyStr :=
  if containsStr (chars "dual fuel") (pyLower title) then chars "Dual Fuel"
  else if containsStr (chars "gas") (pyLower title) then chars "Gas"
  else []

/-- The `base_finish` field (lines 44-52). -/
def baseFinishOf (title : PyStr) : PyStr :=
  let tl := pyLower title
  if containsStr (chars "black stainless steel") tl then chars "Black Stainless Steel"
  else if containsStr (chars "satin stainless steel") tl then chars "Satin Stainless Steel"
  else if containsStr (chars "stainless steel") tl then chars "Stainless Steel"
  else []

/-- The `accent` field (lines 55-62). -/
def accentOf (title : PyStr) : PyStr :=
  let tl := pyLower title
  if containsStr (chars "champagne bronze") tl then chars "Champagne Bronze"
  else if containsStr (chars "polished gold") tl then chars "Polished Gold"
  else if containsStr (chars "matte black") tl then chars "Matte Black"
  else []

/-- The `door_color` field (lines 65-67). -/
def doorColorOf (title : PyStr) : PyStr :=
  let tl := pyLower title
  if containsStr (chars "white matte door") tl || containsStr (chars "white matte") tl then
    chars "White Matte"
  else []

/-- The `burner_type` field (lines 70-76). -/
def burnerTypeOf (title : PyStr) : PyStr :=
  let tl := pyLower title
  if containsStr (chars "brass burner") tl then chars "Brass Burners"
  else if containsStr (chars "duopro") tl then chars "DuoPro Burners"
  else if containsStr (chars "porcelain") tl then chars "Porcelain"
  else []

/-- Embedding of `extract_variant_details` (lines 27-93), as the key/value
list of the returned dict: the four unconditional entries, then `door_color`
and `burner_type` only when truthy (the `if door_color:` / `if burner_type:`
guards at lines 87-91). -/
def extract_variant_details (title : PyStr) : List (PyStr × PyStr) :=
  [ (chars "size", extractSize title),
    (chars "fuel_type", fuelTypeOf title),
    (chars "base_finish", baseFinishOf title),
    (chars "accent", accentOf title) ]
  ++ (if doorColorOf title = [] then [] else [(chars "door_color", doorColorOf title)])
  ++ (if burnerTypeOf title = [] then [] else [(chars "burner_type", burnerTypeOf title)])

/-- Dict lookup on the key/value list. -/
def lookupKey (k : PyStr) : List (PyStr × PyStr) → Option PyStr
  | [] => none
  | (k', v) :: rest => if k' = k then some v else lookupKey k rest

/-! ## The aggregator (`ZLineRangeSeriesManager`) -/

/-- A value that can sit in the `price` field handed to `add_variant`: the
extracted `data-price` attribute is a string, the in-code default is the
Python integer `0`. -/
inductive PyPrice where
  | int (n : Int)
  | str (s : PyStr)
deriving DecidableEq

/-- The `structured_variant` dict built at lines 112-120.  The keys spread in
from `**details` are the four unconditional fields plus `door_color` /
`burner_type`, which are present only when detected; their absence is
modelled as `none`. -/
structure Variant where
  sku : PyStr
  title : PyStr
  price : Int
  url : PyStr
  images : List PyStr
  description : PyStr
  size : PyStr
  fuel_type : PyStr
  base_finish : PyStr
  accent : PyStr
  door_color : Option PyStr
  burner_type : Option PyStr
deriving DecidableEq

/-- The `variant_data` bag handed to `add_variant`; every field is read with
`dict.get` and a default, so each is optional here. -/
structure VariantData where
  title : Option PyStr
  price : Option PyPrice
  url : Option PyStr
  images : Option (List PyStr)
  description : Option PyStr
deriving DecidableEq

/-- The numeric value of an ASCII digit string. -/
def digitsToNat (ds : PyStr) : Nat := ds.foldl (fun a c => 10 * a + (c.toNat - 48)) 0

/-- Python `int(s)` on a string: strip whitespace, optional sign, then a
non-empty digit run; anything else raises `ValueError` (`none` here).
(Underscore digit separators, accepted by CPython, are not modelled; no
string in the repository uses them.) -/
def pyIntOfStr (s : PyStr) : Option Int :=
  match pyStrip s with
  | [] => none
  | c :: rest =>
    if c = '-' then
      if !rest.isEmpty && rest.all isDigitChar then some (-(digitsToNat rest : Int)) else none
    else if c = '+' then
      if !rest.isEmpty && rest.all isDigitChar then some (digitsToNat rest) else none
    else
      if (c :: rest).all isDigitChar then some (digitsToNat (c :: rest)) else none

/-- Python `int(x)` on the values a `price` field can hold. -/
def pyInt : PyPrice → Option Int
  | .int n => some n
  | .str s => pyIntOfStr s

/-- `int(variant_data.get('price', 0))` (line 115): a missing field defaults
to the Python integer `0`; a present field is coerced and may fail. -/
def priceCoerce : Option PyPrice → Option Int
  | none => some 0
  | some p => pyInt p

/-- The aggregator state: `self.series_data`, pre-seeded with the four series
keys each holding an empty variant list (lines 96-102). -/
structure ZLineRangeSeriesManager where
  paramount : List Variant
  classic : List Variant
  select : List Variant
  unknown : List Variant
deriving DecidableEq

/-- The freshly constructed manager (`__init__`). -/
def ZLineRangeSeriesManager.init : ZLineRangeSeriesManager := ⟨[], [], [], []⟩

/-- `self.series_data[series]['variants']`, for a series key produced by
`detect_series` (which is total, so the final branch is reached only with
`"unknown"`). -/
def seriesGet (m : ZLineRangeSeriesManager) (s : PyStr) : List Variant :=
  if s = chars "paramount" then m.paramount
  else if s = chars "classic" then m.classic
  else if s = chars "select" then m.select
  else m.unknown

/-- `self.series_data[series]['variants'].append(v)` (line 122). -/
def addToSeries (m : ZLineRangeSeriesManager) (s : PyStr) (v : Variant) :
    ZLineRangeSeriesManager :=
  if s = chars "paramount" then { m with paramount := m.paramount ++ [v] }
  else if s = chars "classic" then { m with classic := m.classic ++ [v] }
  else if s = chars "select" then { m with select := m.select ++ [v] }
  else { m with unknown := m.unknown ++ [v] }

/-- The four series keys seeded by `__init__`. -/
def isSeriesKey (s : PyStr) : Prop :=
  s = chars "paramount" ∨ s = chars "classic" ∨ s = chars "select" ∨ s = chars "unknown"

/-- The `structured_variant` dict built at lines 112-120, given the already
coerced price `p`. -/
def mkVariant (vd : VariantData) (p : Int) : Variant :=
  let title := vd.title.getD []
  { sku := extract_sku_from_title title
    title := title
    price := p
    url := chars "https://zlinekitchen.com" ++ vd.url.getD []
    images := vd.images.getD []
    description := vd.description.getD []
    size := extractSize title
    fuel_type := fuelTypeOf title
    base_finish := baseFinishOf title
    accent := accentOf title
    door_color := if doorColorOf title = [] then none else some (doorColorOf title)
    burner_type := if burnerTypeOf title = [] then none else some (burnerTypeOf title) }

/-- Embedding of `ZLineRangeSeriesManager.add_variant` (lines 104-122).  The
only statement that can raise is `int(variant_data.get('price', 0))`, whose
`ValueError` on an unparseable price propagates to the caller; that outcome
is the `Except.error` branch, in which nothing is appended. -/
def add_variant (m : ZLineRangeSeriesManager) (vd : VariantData) :
    Except Unit ZLineRangeSeriesManager :=
  match priceCoerce vd.price with
  | none => .error ()
  | some p => .ok (addToSeries m (detect_series (vd.title.getD [])) (mkVariant vd p))

/-- One group of the output document (lines 137-142). -/
structure SeriesGroup where
  series_name : PyStr
  total_variants : Nat
  variants : List Variant
deriving DecidableEq

/-- The output document (lines 126-144).  The `timestamp` metadata field is a
wall-clock read (`datetime.now()`) and is not modelled. -/
structure StructuredData where
  total_series : Nat
  total_variants : Nat
  range_series : List (PyStr × SeriesGroup)
deriving DecidableEq

/-- Python `str.capitalize()` (ASCII): first character upper-cased, the rest
lower-cased. -/
def pyCapitalize : PyStr → PyStr
  | [] => []
  | c :: rest => Char.toUpper c :: rest.map Char.toLower

/-- `self.series_data.items()` in dict insertion order (the order seeded by
`__init__`). -/
def seriesItems (m : ZLineRangeSeriesManager) : List (PyStr × List Variant) :=
  [ (chars "paramount", m.paramount), (chars "classic", m.classic),
    (chars "select", m.select), (chars "unknown", m.unknown) ]

/-- The composite sort key of line 141, `(x['size'], x['fuel_type'],
x.get('accent', ''))` — `accent` is always present in a `structured_variant`,
so the `.get` default never fires — compared as Python compares tuples of
strings: lexicographically, with strings ordered by code point. -/
def sortKey (v : Variant) : Lex (PyStr × Lex (PyStr × PyStr)) :=
  toLex (v.size, toLex (v.fuel_type, v.accent))

/-- The order `sorted` sorts by at line 140. -/
def keyLe (v w : Variant) : Prop := sortKey v ≤ sortKey w

instance : DecidableRel keyLe := fun v w =>
  inferInstanceAs (Decidable (sortKey v ≤ sortKey w))

instance : IsTotal Variant keyLe := ⟨fun a b => le_total (sortKey a) (sortKey b)⟩

instance : IsTrans Variant keyLe := ⟨fun _ _ _ h1 h2 => le_trans h1 h2⟩

/-- Embedding of `get_structured_data` (lines 124-144).  Python's `sorted` is
a stable sort by the key of line 141; `List.insertionSort` is extensionally
the same stable sort. -/
def get_structured_data (m : ZLineRangeSeriesManager) : StructuredData :=
  { total_series := ((seriesItems m).filter (fun p => !p.2.isEmpty)).length
    total_variants := ((seriesItems m).map (fun p => p.2.length)).sum
    range_series := ((seriesItems m).filter (fun p => !p.2.isEmpty)).map (fun p =>
      (p.1, { series_name := pyCapitalize p.1
              total_variants := p.2.length
              variants := List.insertionSort keyLe p.2 })) }

/-! ## The traversal (`get_all_variants_demo`) -/

/-- Page-relative URLs. -/
abbrev Url := PyStr

/-- The fields the JSON-CSS extraction can deliver for one page; each is read
with `dict.get` and a default.  `variant_urls` models the list of
`{"url": ...}` entries: each element is the entry's `url` value (`none` when
the key is missing). -/
structure PageData where
  title : Option PyStr
  price : Option PyPrice
  description : Option PyStr
  images : Option (List PyStr)
  variant_urls : List (Option Url)
deriving DecidableEq

/-- Outcome of one `crawler.arun` call together with the JSON parsing of its
extracted content: `fail` is `result.success == False`; `badContent` is
`json.loads(result.extracted_content)[0]` raising (caught by the `except`
block); `ok` carries the parsed field bag. -/
inductive FetchResult where
  | fail
  | badContent
  | ok (d : PageData)
deriving DecidableEq

/-- The fetch adapter: the opaque rendering/extraction service, as a function
from the page-relative URL to the fetch outcome (the fixed origin prefix that
`arun` receives is absorbed into the adapter).  A function of the URL covers
every possible sequence of fetch results, since the traversal fetches each
URL at most once. -/
abbrev Adapter := Url → FetchResult

/-- The `variant_data` dict built at lines 168-174. -/
def buildVariantData (currentUrl : Url) (d : PageData) : VariantData :=
  { url := some currentUrl
    title := some (d.title.getD (chars "N/A"))
    price := some (d.price.getD (.str (chars "0")))
    description := some (d.description.getD [])
    images := some (d.images.getD []) }

/-- `unique_urls` (lines 178-182): the set of truthy `url` fields of the
`variant_urls` entries (`if variant_url:` drops both `None` and `""`).
Python set iteration order is unspecified; the embedding fixes
first-occurrence order — no property proved below depends on this order. -/
def uniqueUrls (d : PageData) : List Url :=
  ((d.variant_urls.filterMap id).filter (fun u => !u.isEmpty)).foldl
    (fun acc u => if u ∈ acc then acc else acc ++ [u]) []

/-- The enqueue loop (lines 186-190): each discovered URL is appended only if
absent from both the visited set and the queue as it stands at that moment
(including URLs appended earlier in the same loop). -/
def enqueueAll (visited : List Url) (queue : List Url) (urls : List Url) : List Url :=
  urls.foldl (fun q u => if u ∈ visited ∨ u ∈ q then q else q ++ [u]) queue

/-- The traversal state: Python's `visited` set (modelled as an
insertion-ordered duplicate-free list), `queue` list, and `series_manager`,
plus `fetched`, instrumentation recording the URLs passed to `crawler.arun`
in order (not a Python variable). -/
structure LoopState where
  visited : List Url
  queue : List Url
  mgr : ZLineRangeSeriesManager
  fetched : List Url
deriving DecidableEq

/-- One body of the `while` loop (lines 154-197), given that the guard held
and the queue was `u :: rest`.  If `add_variant` raises (unparseable price),
the `except` block catches it after the `add_variant` call, so discovery and
enqueueing are skipped for that page, exactly as for unparseable content. -/
def crawlIter (A : Adapter) (s : LoopState) (u : Url) (rest : List Url) : LoopState :=
  if u ∈ s.visited then { s with queue := rest }
  else
    match A u with
    | .fail =>
      { s with visited := s.visited ++ [u], fetched := s.fetched ++ [u], queue := rest }
    | .badContent =>
      { s with visited := s.visited ++ [u], fetched := s.fetched ++ [u], queue := rest }
    | .ok d =>
      match add_variant s.mgr (buildVariantData u d) with
      | .error _ =>
        { s with visited := s.visited ++ [u], fetched := s.fetched ++ [u], queue := rest }
      | .ok m' =>
        { visited := s.visited ++ [u], fetched := s.fetched ++ [u],
          queue := enqueueAll (s.visited ++ [u]) rest (uniqueUrls d), mgr := m' }

/-- The `while queue and len(visited) < max_urls` loop (line 153), with a
fuel parameter bounding the number of iterations (the Python loop always
terminates; every property below is proved for every fuel, hence in
particular for the fuel at which the run stabilises). -/
def crawlRun (A : Adapter) (maxUrls : Nat) : Nat → LoopState → LoopState
  | 0, s => s
  | fuel' + 1, s =>
    match s.queue with
    | [] => s
    | u :: rest =>
      if s.visited.length < maxUrls then crawlRun A maxUrls fuel' (crawlIter A s u rest)
      else s

/-- The state at entry of `get_all_variants_demo` (lines 147-149). -/
def initState (startUrl : Url) : LoopState :=
  { visited := [], queue := [startUrl], mgr := ZLineRangeSeriesManager.init, fetched := [] }

/-- Embedding of `get_all_variants_demo` (lines 146-199), returning the final
loop state; the Python function returns `get_structured_data` of its
manager, i.e. `get_structured_data (get_all_variants_demo ...).mgr`. -/
def get_all_variants_demo (startUrl : Url) (A : Adapter) (maxUrls : Nat) (fuel : Nat) :
    LoopState :=
  crawlRun A maxUrls fuel (initState startUrl)

/-- The loop invariant of the traversal: the visited set is duplicate-free,
is exactly the fetch trace, and respects the cap; the queue is duplicate-free
and disjoint from the visited set. -/
def CrawlInv (maxUrls : Nat) (s : LoopState) : Prop :=
  s.visited.Nodup ∧ s.fetched = s.visited ∧ s.visited.length ≤ maxUrls
    ∧ s.queue.Nodup ∧ ∀ u ∈ s.queue, u ∉ s.visited

/-! ## Concrete instances used to witness the theorems below -/

/-- A field bag with a `classic` title, no price and no other fields. -/
def vdClassic : VariantData :=
  { title := some (chars "Classic"), price := none, url := none, images := none,
    description := none }

/-- The record `add_variant` builds from `vdClassic`. -/
def vClassic : Variant :=
  { sku := [], title := chars "Classic", price := 0,
    url := chars "https://zlinekitchen.com", images := [], description := [],
    size := [], fuel_type := [], base_finish := [], accent := [],
    door_color := none, burner_type := none }

/-- The manager after ingesting `vdClassic` once into a fresh manager. -/
def mClassic : ZLineRangeSeriesManager := { paramount := [], classic := [vClassic], select := [], unknown := [] }

/-- A manager whose only variant sits in the `unknown` series. -/
def mUnknown : ZLineRangeSeriesManager := { paramount := [], classic := [], select := [], unknown := [vClassic] }

/-- A page with no `title` field and an unparseable `price`. -/
def pageBadPrice : PageData :=
  { title := none, price := some (.str (chars "oops")), description := none,
    images := none, variant_urls := [] }

/-- An adapter that always serves `pageBadPrice`. -/
def adapterBadPrice : Adapter := fun _ => .ok pageBadPrice

/-- A page with no `title` field and no `price` field. -/
def pageNoTitle : PageData :=
  { title := none, price := none, description := none, images := none,
    variant_urls := [] }

/-- A page that lists one discovered variant URL, `/b`. -/
def pageDisc : PageData :=
  { title := some (chars "T"), price := none, description := none, images := none,
    variant_urls := [some (chars "/b")] }

/-- An adapter that always serves `pageDisc`. -/
def adapterDisc : Adapter := fun _ => .ok pageDisc

/-! ## List helpers -/

theorem takeWhile_eq_of_append (p : Char → Bool) (a : List Char) (c : Char) (b : List Char)
    (ha : ∀ x ∈ a, p x = true) (hc : p c = false) :
    (a ++ c :: b).takeWhile p = a := by
  induction a with
  | nil => simp [List.takeWhile_cons, hc]
  | cons x xs ih =>
    have hx : p x = true := ha x (List.mem_cons_self x xs)
    rw [List.cons_append, List.takeWhile_cons, if_pos hx,
      ih (fun y hy => ha y (List.mem_cons_of_mem x hy))]

theorem dropWhile_eq_of_append (p : Char → Bool) (a : List Char) (c : Char) (b : List Char)
    (ha : ∀ x ∈ a, p x = true) (hc : p c = false) :
    (a ++ c :: b).dropWhile p = c :: b := by
  induction a with
  | nil => simp [List.dropWhile_cons, hc]
  | cons x xs ih =>
    have hx : p x = true := ha x (List.mem_cons_self x xs)
    rw [List.cons_append, List.dropWhile_cons, if_pos hx,
      ih (fun y hy => ha y (List.mem_cons_of_mem x hy))]

theorem mem_takeWhile (p : Char → Bool) :
    ∀ (l : List Char) (x : Char), x ∈ l.takeWhile p → p x = true := by
  intro l
  induction l with
  | nil => simp
  | cons a as ih =>
    intro x hx
    rw [List.takeWhile_cons] at hx
    by_cases hpa : p a = true
    · rw [if_pos hpa] at hx
      rcases List.mem_cons.mp hx with h | h
      · exact h ▸ hpa
      · exact ih x h
    · rw [if_neg hpa] at hx
      exact absurd hx (List.not_mem_nil x)

/-! ## C3: `extract_sku_from_title` -/

theorem skuCore_complete (tok post : PyStr) (htok : tok ≠ [])
    (hall : ∀ c ∈ tok, isSkuChar c = true) :
    skuCore (tok.reverse ++ '(' :: post) = tok := by
  have hallr : ∀ c ∈ tok.reverse, isSkuChar c = true :=
    fun c hc => hall c (List.mem_reverse.mp hc)
  have hpar : isSkuChar '(' = false := by decide
  unfold skuCore
  rw [dropWhile_eq_of_append _ _ _ _ hallr hpar,
    takeWhile_eq_of_append _ _ _ _ hallr hpar, List.head?_cons, if_pos rfl,
    if_neg (by simpa using htok), List.reverse_reverse]

theorem skuFromRev_complete (tok post : PyStr) (htok : tok ≠ [])
    (hall : ∀ c ∈ tok, isSkuChar c = true) :
    skuFromRev (')' :: (tok.reverse ++ '(' :: post)) = tok := by
  unfold skuFromRev
  rw [List.head?_cons, if_pos rfl, List.tail_cons]
  exact skuCore_complete tok post htok hall

theorem skuCore_sound (rest : PyStr) (h : skuCore rest ≠ []) :
    (∀ c ∈ skuCore rest, isSkuChar c = true) ∧
    ∃ post, rest = (skuCore rest).reverse ++ '(' :: post := by
  unfold skuCore at h ⊢
  by_cases h1 : (rest.dropWhile isSkuChar).head? = some '('
  · rw [if_pos h1] at h ⊢
    by_cases h2 : rest.takeWhile isSkuChar = []
    · rw [if_pos h2] at h
      exact absurd rfl h
    · rw [if_neg h2] at h ⊢
      refine ⟨fun c hc => mem_takeWhile _ _ c (List.mem_reverse.mp hc), ?_⟩
      obtain ⟨post, hpost⟩ : ∃ post, rest.dropWhile isSkuChar = '(' :: post := by
        cases hd : rest.dropWhile isSkuChar with
        | nil => rw [hd] at h1; simp at h1
        | cons c t =>
          rw [hd] at h1
          simp only [List.head?_cons, Option.some.injEq] at h1
          exact ⟨t, by rw [h1]⟩
      refine ⟨post, ?_⟩
      rw [List.reverse_reverse, ← hpost, List.takeWhile_append_dropWhile]
  · rw [if_neg h1] at h
    exact absurd rfl h

theorem skuFromRev_sound (r : PyStr) (h : skuFromRev r ≠ []) :
    (∀ c ∈ skuFromRev r, isSkuChar c = true) ∧
    ∃ post, r = ')' :: ((skuFromRev r).reverse ++ '(' :: post) := by
  unfold skuFromRev at h ⊢
  by_cases h1 : r.head? = some ')'
  · rw [if_pos h1] at h ⊢
    obtain ⟨hall, post, hpost⟩ := skuCore_sound r.tail h
    refine ⟨hall, post, ?_⟩
    cases r with
    | nil => simp at h1
    | cons c t =>
      simp only [List.head?_cons, Option.some.injEq] at h1
      rw [h1, List.tail_cons] at hpost ⊢
      rw [← hpost]
  · rw [if_neg h1] at h
    exact absurd rfl h

/-- C3: `extract_sku_from_title` returns the trailing parenthesized token of
uppercase letters, digits and hyphens at the end of the trimmed title, and
returns `""` otherwise — in particular on the empty title, when no trailing
parenthesized token exists, when the token contains lowercase letters, and
when parenthesized tokens occur only mid-string.  Soundness (any non-empty
result is such a trailing token of the stripped title) and completeness (a
title whose stripped form ends in such a token yields exactly that token)
together with the spec's three concrete examples. -/
theorem extract_sku_from_title_spec :
    (extract_sku_from_title (chars "Foo Bar (SGRZ-30-CB)") = chars "SGRZ-30-CB"
      ∧ extract_sku_from_title (chars "Foo Bar") = []
      ∧ extract_sku_from_title (chars "Foo (abc-1)") = []
      ∧ extract_sku_from_title [] = [])
    ∧ (∀ title pre tok, tok ≠ [] → (∀ c ∈ tok, isSkuChar c = true) →
        pyStrip title = pre ++ '(' :: (tok ++ [')']) →
        extract_sku_from_title title = tok)
    ∧ (∀ title, extract_sku_from_title title ≠ [] →
        (∀ c ∈ extract_sku_from_title title, isSkuChar c = true)
        ∧ ∃ pre, pyStrip title = pre ++ '(' :: (extract_sku_from_title title ++ [')'])) := by
  refine ⟨⟨by decide, by decide, by decide, by decide⟩, ?_, ?_⟩
  · intro title pre tok htok hall hstrip
    have ht : title ≠ [] := by
      rintro rfl
      have hne : pre ++ '(' :: (tok ++ [')']) ≠ ([] : PyStr) := by simp
      exact hne (hstrip.symm.trans rfl)
    unfold extract_sku_from_title
    rw [if_neg ht, hstrip]
    have hrev : (pre ++ '(' :: (tok ++ [')'])).reverse
        = ')' :: (tok.reverse ++ '(' :: pre.reverse) := by
      simp
    rw [hrev]
    exact skuFromRev_complete tok pre.reverse htok hall
  · intro title h
    by_cases ht : title = []
    · subst ht
      exact absurd rfl h
    · have hdef : extract_sku_from_title title = skuFromRev (pyStrip title).reverse := by
        unfold extract_sku_from_title
        rw [if_neg ht]
      rw [hdef] at h ⊢
      obtain ⟨hall, post, hpost⟩ := skuFromRev_sound _ h
      set e := skuFromRev (pyStrip title).reverse with he
      refine ⟨hall, post.reverse, ?_⟩
      have h2 := congrArg List.reverse hpost
      rw [List.reverse_reverse] at h2
      rw [h2]
      simp

/-- Witness for C3: the completeness clause applied at a concrete title. -/
theorem extract_sku_from_title_spec_witness :
    extract_sku_from_title (chars " ZLINE Range (RA-36) ") = chars "RA-36" :=
  extract_sku_from_title_spec.2.1 (chars " ZLINE Range (RA-36) ") (chars "ZLINE Range ")
    (chars "RA-36") (by decide) (by decide) (by decide)

/-! ## C4: `detect_series` -/

theorem detect_series_mem (title : PyStr) :
    detect_series title = chars "paramount" ∨ detect_series title = chars "classic"
      ∨ detect_series title = chars "select" ∨ detect_series title = chars "unknown" := by
  unfold detect_series
  dsimp only
  split_ifs <;> simp

/-- C4 counterexample: the claim's parenthetical "a title containing both
`classic` and `select` is classified `classic`" fails at the explicit input
`"Paramount Classic Select"`, which contains both substrings (case
insensitively) yet is classified `paramount`. -/
theorem detect_series_counterexample :
    containsStr (chars "classic") (pyLower (chars "Paramount Classic Select")) = true
    ∧ containsStr (chars "select") (pyLower (chars "Paramount Classic Select")) = true
    ∧ detect_series (chars "Paramount Classic Select") ≠ chars "classic" := by decide

/-- C4 amended: `detect_series` is total (it always returns one of exactly
`paramount`, `classic`, `select`, `unknown`), performs case-insensitive
substring search in the fixed priority order paramount, then classic, then
select, with first hit winning and `unknown` as the default (so a title
containing both `classic` and `select` — and not `paramount` — is classified
`classic`), and is idempotent. -/
theorem detect_series_spec :
    (∀ title, detect_series title = chars "paramount" ∨ detect_series title = chars "classic"
      ∨ detect_series title = chars "select" ∨ detect_series title = chars "unknown")
    ∧ (∀ title, containsStr (chars "paramount") (pyLower title) = true →
        detect_series title = chars "paramount")
    ∧ (∀ title, containsStr (chars "paramount") (pyLower title) = false →
        containsStr (chars "classic") (pyLower title) = true →
        detect_series title = chars "classic")
    ∧ (∀ title, containsStr (chars "paramount") (pyLower title) = false →
        containsStr (chars "classic") (pyLower title) = false →
        containsStr (chars "select") (pyLower title) = true →
        detect_series title = chars "select")
    ∧ (∀ title, containsStr (chars "paramount") (pyLower title) = false →
        containsStr (chars "classic") (pyLower title) = false →
        containsStr (chars "select") (pyLower title) = false →
        detect_series title = chars "unknown")
    ∧ (∀ title, detect_series (detect_series title) = detect_series title) := by
  refine ⟨detect_series_mem, ?_, ?_, ?_, ?_, ?_⟩
  · intro title h1
    simp [detect_series, h1]
  · intro title h1 h2
    simp [detect_series, h1, h2]
  · intro title h1 h2 h3
    simp [detect_series, h1, h2, h3]
  · intro title h1 h2 h3
    simp [detect_series, h1, h2, h3]
  · intro title
    rcases detect_series_mem title with h | h | h | h <;> rw [h] <;> decide

/-- Witness for C4 (amended): a title containing `classic` and `select` but
not `paramount` is classified `classic`. -/
theorem detect_series_spec_witness :
    detect_series (chars "ZLINE Classic Select Range") = chars "classic" :=
  detect_series_spec.2.2.1 (chars "ZLINE Classic Select Range") (by decide) (by decide)

/-! ## C5, C6: `extract_variant_details` -/

theorem lookupKey_cons (k k' : PyStr) (v : PyStr) (rest : List (PyStr × PyStr)) :
    lookupKey k ((k', v) :: rest) = if k' = k then some v else lookupKey k rest := rfl

theorem lookupKey_append (k : PyStr) (l1 l2 : List (PyStr × PyStr)) :
    lookupKey k (l1 ++ l2)
      = match lookupKey k l1 with
        | some v => some v
        | none => lookupKey k l2 := by
  induction l1 with
  | nil => rfl
  | cons p rest ih =>
    obtain ⟨k', v⟩ := p
    rw [List.cons_append, lookupKey_cons, lookupKey_cons]
    by_cases h : k' = k
    · rw [if_pos h, if_pos h]
    · rw [if_neg h, if_neg h, ih]

theorem lookup_size (t : PyStr) :
    lookupKey (chars "size") (extract_variant_details t) = some (extractSize t) := rfl

theorem lookup_fuel_type (t : PyStr) :
    lookupKey (chars "fuel_type") (extract_variant_details t) = some (fuelTypeOf t) := rfl

theorem lookup_base_finish (t : PyStr) :
    lookupKey (chars "base_finish") (extract_variant_details t) = some (baseFinishOf t) := rfl

theorem lookup_accent (t : PyStr) :
    lookupKey (chars "accent") (extract_variant_details t) = some (accentOf t) := rfl

theorem lookup_door_color (t : PyStr) :
    lookupKey (chars "door_color") (extract_variant_details t)
      = if doorColorOf t = [] then none else some (doorColorOf t) := by
  unfold extract_variant_details
  have hbase : lookupKey (chars "door_color")
      [(chars "size", extractSize t), (chars "fuel_type", fuelTypeOf t),
       (chars "base_finish", baseFinishOf t), (chars "accent", accentOf t)] = none := rfl
  rw [List.append_assoc, lookupKey_append, hbase]
  dsimp only
  by_cases hd : doorColorOf t = []
  · rw [if_pos hd, if_pos hd, List.nil_append]
    by_cases hb : burnerTypeOf t = []
    · rw [if_pos hb]
      rfl
    · rw [if_neg hb]
      rfl
  · rw [if_neg hd, if_neg hd, List.cons_append, lookupKey_cons, if_pos rfl]

theorem lookup_burner_type (t : PyStr) :
    lookupKey (chars "burner_type") (extract_variant_details t)
      = if burnerTypeOf t = [] then none else some (burnerTypeOf t) := by
  unfold extract_variant_details
  have hbase : lookupKey (chars "burner_type")
      [(chars "size", extractSize t), (chars "fuel_type", fuelTypeOf t),
       (chars "base_finish", baseFinishOf t), (chars "accent", accentOf t)] = none := rfl
  rw [List.append_assoc, lookupKey_append, hbase]
  dsimp only
  have hburner : lookupKey (chars "burner_type")
      (if burnerTypeOf t = [] then [] else [(chars "burner_type", burnerTypeOf t)])
      = if burnerTypeOf t = [] then none else some (burnerTypeOf t) := by
    by_cases hb : burnerTypeOf t = []
    · rw [if_pos hb, if_pos hb]
      rfl
    · rw [if_neg hb, if_neg hb, lookupKey_cons, if_pos rfl]
  by_cases hd : doorColorOf t = []
  · rw [if_pos hd, List.nil_append, hburner]
  · rw [if_neg hd, List.cons_append, lookupKey_cons, if_neg (by decide), List.nil_append,
      hburner]

/-- C5: order-sensitive, case-insensitive precedence in
`extract_variant_details`: `fuel_type` is `Dual Fuel` whenever the title
contains `dual fuel` (whether or not it also contains `gas`), else `Gas` when
it contains `gas`, else empty; `base_finish` prefers
`Black Stainless Steel` over `Satin Stainless Steel` over plain
`Stainless Steel` over empty, so a title containing `black stainless steel`
never yields the plain match. -/
theorem extract_variant_details_precedence (title : PyStr) :
    (containsStr (chars "dual fuel") (pyLower title) = true →
      lookupKey (chars "fuel_type") (extract_variant_details title) = some (chars "Dual Fuel"))
    ∧ (containsStr (chars "dual fuel") (pyLower title) = false →
        containsStr (chars "gas") (pyLower title) = true →
        lookupKey (chars "fuel_type") (extract_variant_details title) = some (chars "Gas"))
    ∧ (containsStr (chars "dual fuel") (pyLower title) = false →
        containsStr (chars "gas") (pyLower title) = false →
        lookupKey (chars "fuel_type") (extract_variant_details title) = some [])
    ∧ (containsStr (chars "black stainless steel") (pyLower title) = true →
        lookupKey (chars "base_finish") (extract_variant_details title)
          = some (chars "Black Stainless Steel"))
    ∧ (containsStr (chars "black stainless steel") (pyLower title) = false →
        containsStr (chars "satin stainless steel") (pyLower title) = true →
        lookupKey (chars "base_finish") (extract_variant_details title)
          = some (chars "Satin Stainless Steel"))
    ∧ (containsStr (chars "black stainless steel") (pyLower title) = false →
        containsStr (chars "satin stainless steel") (pyLower title) = false →
        containsStr (chars "stainless steel") (pyLower title) = true →
        lookupKey (chars "base_finish") (extract_variant_details title)
          = some (chars "Stainless Steel"))
    ∧ (containsStr (chars "black stainless steel") (pyLower title) = false →
        containsStr (chars "satin stainless steel") (pyLower title) = false →
        containsStr (chars "stainless steel") (pyLower title) = false →
        lookupKey (chars "base_finish") (extract_variant_details title) = some []) := by
  refine ⟨?_, ?_, ?_, ?_, ?_, ?_, ?_⟩
  · intro h1
    rw [lookup_fuel_type]
    simp [fuelTypeOf, h1]
  · intro h1 h2
    rw [lookup_fuel_type]
    simp [fuelTypeOf, h1, h2]
  · intro h1 h2
    rw [lookup_fuel_type]
    simp [fuelTypeOf, h1, h2]
  · intro h1
    rw [lookup_base_finish]
    simp [baseFinishOf, h1]
  · intro h1 h2
    rw [lookup_base_finish]
    simp [baseFinishOf, h1, h2]
  · intro h1 h2 h3
    rw [lookup_base_finish]
    simp [baseFinishOf, h1, h2, h3]
  · intro h1 h2 h3
    rw [lookup_base_finish]
    simp [baseFinishOf, h1, h2, h3]

/-- Witness for C5: a title containing `dual fuel`, `gas` and
`black stainless steel` gets `Dual Fuel` and `Black Stainless Steel`. -/
theorem extract_variant_details_precedence_witness :
    lookupKey (chars "fuel_type")
        (extract_variant_details (chars "ZLINE 48 in. Dual Fuel Gas Range in Black Stainless Steel"))
      = some (chars "Dual Fuel")
    ∧ lookupKey (chars "base_finish")
        (extract_variant_details (chars "ZLINE 48 in. Dual Fuel Gas Range in Black Stainless Steel"))
      = some (chars "Black Stainless Steel") :=
  ⟨(extract_variant_details_precedence
      (chars "ZLINE 48 in. Dual Fuel Gas Range in Black Stainless Steel")).1 (by decide),
   (extract_variant_details_precedence
      (chars "ZLINE 48 in. Dual Fuel Gas Range in Black Stainless Steel")).2.2.2.1 (by decide)⟩

/-- C6: the result of `extract_variant_details` always carries the four keys
`size`, `fuel_type`, `base_finish`, `accent` (with empty-string values when
the pattern is undetected — e.g. the `size` key maps to `""` when no size
pattern matches), while `door_color` and `burner_type` are entirely omitted
(no entry at all, rather than an empty-string entry) whenever their patterns
are not detected, and present when detected. -/
theorem extract_variant_details_keys (title : PyStr) :
    lookupKey (chars "size") (extract_variant_details title) = some (extractSize title)
    ∧ lookupKey (chars "fuel_type") (extract_variant_details title) = some (fuelTypeOf title)
    ∧ lookupKey (chars "base_finish") (extract_variant_details title) = some (baseFinishOf title)
    ∧ lookupKey (chars "accent") (extract_variant_details title) = some (accentOf title)
    ∧ (sizeSearch title = none →
        lookupKey (chars "size") (extract_variant_details title) = some [])
    ∧ (containsStr (chars "white matte door") (pyLower title) = false →
        containsStr (chars "white matte") (pyLower title) = false →
        lookupKey (chars "door_color") (extract_variant_details title) = none)
    ∧ (containsStr (chars "white matte") (pyLower title) = true →
        lookupKey (chars "door_color") (extract_variant_details title)
          = some (chars "White Matte"))
    ∧ (containsStr (chars "brass burner") (pyLower title) = false →
        containsStr (chars "duopro") (pyLower title) = false →
        containsStr (chars "porcelain") (pyLower title) = false →
        lookupKey (chars "burner_type") (extract_variant_details title) = none) := by
  refine ⟨lookup_size title, lookup_fuel_type title, lookup_base_finish title,
    lookup_accent title, ?_, ?_, ?_, ?_⟩
  · intro h
    rw [lookup_size]
    simp [extractSize, h]
  · intro h1 h2
    rw [lookup_door_color, if_pos (by simp [doorColorOf, h1, h2])]
  · intro h
    have hd : doorColorOf title = chars "White Matte" := by simp [doorColorOf, h]
    rw [lookup_door_color, hd, if_neg (by decide)]
  · intro h1 h2 h3
    rw [lookup_burner_type, if_pos (by simp [burnerTypeOf, h1, h2, h3])]

/-- Witness for C6: a featureless title keeps the four keys (empty-valued)
and omits `door_color` and `burner_type`. -/
theorem extract_variant_details_keys_witness :
    lookupKey (chars "size") (extract_variant_details (chars "plain")) = some []
    ∧ lookupKey (chars "door_color") (extract_variant_details (chars "plain")) = none
    ∧ lookupKey (chars "burner_type") (extract_variant_details (chars "plain")) = none :=
  ⟨(extract_variant_details_keys (chars "plain")).2.2.2.2.1 (by decide),
   (extract_variant_details_keys (chars "plain")).2.2.2.2.2.1 (by decide) (by decide),
   (extract_variant_details_keys (chars "plain")).2.2.2.2.2.2.2 (by decide) (by decide) (by decide)⟩

/-! ## Aggregator helpers -/

theorem detect_series_isKey (title : PyStr) : isSeriesKey (detect_series title) :=
  detect_series_mem title

theorem seriesGet_addToSeries_same (m : ZLineRangeSeriesManager) (s : PyStr) (v : Variant) :
    seriesGet (addToSeries m s v) s = seriesGet m s ++ [v] := by
  unfold seriesGet addToSeries
  split_ifs <;> rfl

theorem seriesGet_addToSeries_other (m : ZLineRangeSeriesManager) (v : Variant)
    {s s' : PyStr} (hs : isSeriesKey s) (hs' : isSeriesKey s') (hne : s' ≠ s) :
    seriesGet (addToSeries m s v) s' = seriesGet m s' := by
  rcases hs with rfl | rfl | rfl | rfl <;> rcases hs' with rfl | rfl | rfl | rfl <;>
    first
      | exact absurd rfl hne
      | rfl

theorem add_variant_eq_ok (m : ZLineRangeSeriesManager) (vd : VariantData) (p : Int)
    (hp : priceCoerce vd.price = some p) :
    add_variant m vd
      = .ok (addToSeries m (detect_series (vd.title.getD [])) (mkVariant vd p)) := by
  unfold add_variant
  rw [hp]

/-! ## C2: `add_variant` error behaviour -/

/-- C2 counterexample: `add_variant` does raise on malformed input — with a
price field holding the unparseable string `"abc"`, the coercion
`int(variant_data.get('price', 0))` raises `ValueError` instead of
defaulting the price to 0, and no record is appended. -/
theorem add_variant_counterexample :
    add_variant ZLineRangeSeriesManager.init
      { title := some (chars "ZLINE Gas Range"), price := some (.str (chars "abc")),
        url := some (chars "/p"), images := some [], description := some [] }
      = .error () := rfl

/-- C2 amended: `add_variant` succeeds exactly when the price field is
missing or coerces to an integer; a missing price defaults to 0 (and every
other missing field defaults rather than fails), while a present but
unparseable price raises instead of defaulting. -/
theorem add_variant_error_spec (m : ZLineRangeSeriesManager) (vd : VariantData) :
    ((∃ m', add_variant m vd = .ok m') ↔ priceCoerce vd.price ≠ none)
    ∧ (vd.price = none →
        ∃ m' v, add_variant m vd = .ok m' ∧ v.price = 0
          ∧ seriesGet m' (detect_series (vd.title.getD []))
              = seriesGet m (detect_series (vd.title.getD [])) ++ [v]) := by
  constructor
  · cases hp : priceCoerce vd.price with
    | none =>
      constructor
      · rintro ⟨m', hm⟩
        rw [add_variant, hp] at hm
        exact absurd hm (by simp)
      · intro h
        exact absurd rfl h
    | some p =>
      constructor
      · intro _
        simp
      · intro _
        exact ⟨_, add_variant_eq_ok m vd p hp⟩
  · intro h
    have hp : priceCoerce vd.price = some 0 := by rw [h]; rfl
    exact ⟨_, mkVariant vd 0, add_variant_eq_ok m vd 0 hp, rfl,
      seriesGet_addToSeries_same m _ _⟩

/-- Witness for C2 (amended): a bag with a missing price ingests with
price 0. -/
theorem add_variant_error_spec_witness :
    ∃ m' v, add_variant ZLineRangeSeriesManager.init vdClassic = .ok m' ∧ v.price = 0
      ∧ seriesGet m' (detect_series (vdClassic.title.getD []))
          = seriesGet ZLineRangeSeriesManager.init (detect_series (vdClassic.title.getD []))
            ++ [v] :=
  (add_variant_error_spec ZLineRangeSeriesManager.init vdClassic).2 rfl

/-! ## C9: `add_variant` performs no deduplication -/

/-- C9: a successful `add_variant` appends exactly one record to exactly one
series list (the one `detect_series` picks for the title) and leaves the
other three unchanged; calling it again with the same field bag succeeds and
appends a second, separate record — the aggregator never deduplicates. -/
theorem add_variant_no_dedup (m : ZLineRangeSeriesManager) (vd : VariantData)
    (m1 : ZLineRangeSeriesManager) (h : add_variant m vd = .ok m1) :
    ∃ v m2,
      seriesGet m1 (detect_series (vd.title.getD []))
        = seriesGet m (detect_series (vd.title.getD [])) ++ [v]
      ∧ (∀ s', isSeriesKey s' → s' ≠ detect_series (vd.title.getD []) →
          seriesGet m1 s' = seriesGet m s')
      ∧ add_variant m1 vd = .ok m2
      ∧ seriesGet m2 (detect_series (vd.title.getD []))
        = seriesGet m (detect_series (vd.title.getD [])) ++ [v, v]
      ∧ (∀ s', isSeriesKey s' → s' ≠ detect_series (vd.title.getD []) →
          seriesGet m2 s' = seriesGet m s') := by
  cases hp : priceCoerce vd.price with
  | none =>
    rw [add_variant, hp] at h
    exact absurd h (by simp)
  | some p =>
    have hm1 : m1 = addToSeries m (detect_series (vd.title.getD [])) (mkVariant vd p) := by
      rw [add_variant_eq_ok m vd p hp] at h
      exact (Except.ok.inj h).symm
    subst hm1
    refine ⟨mkVariant vd p, _, seriesGet_addToSeries_same m _ _, ?_,
      add_variant_eq_ok _ vd p hp, ?_, ?_⟩
    · intro s' hs' hne
      exact seriesGet_addToSeries_other m _ (detect_series_isKey _) hs' hne
    · rw [seriesGet_addToSeries_same, seriesGet_addToSeries_same, List.append_assoc]
      rfl
    · intro s' hs' hne
      rw [seriesGet_addToSeries_other _ _ (detect_series_isKey _) hs' hne,
        seriesGet_addToSeries_other _ _ (detect_series_isKey _) hs' hne]

/-- Witness for C9: ingesting `vdClassic` twice into a fresh manager. -/
theorem add_variant_no_dedup_witness :
    ∃ v m2,
      seriesGet mClassic (detect_series (vdClassic.title.getD []))
        = seriesGet ZLineRangeSeriesManager.init (detect_series (vdClassic.title.getD [])) ++ [v]
      ∧ (∀ s', isSeriesKey s' → s' ≠ detect_series (vdClassic.title.getD []) →
          seriesGet mClassic s' = seriesGet ZLineRangeSeriesManager.init s')
      ∧ add_variant mClassic vdClassic = .ok m2
      ∧ seriesGet m2 (detect_series (vdClassic.title.getD []))
        = seriesGet ZLineRangeSeriesManager.init (detect_series (vdClassic.title.getD []))
          ++ [v, v]
      ∧ (∀ s', isSeriesKey s' → s' ≠ detect_series (vdClassic.title.getD []) →
          seriesGet m2 s' = seriesGet ZLineRangeSeriesManager.init s') :=
  add_variant_no_dedup ZLineRangeSeriesManager.init vdClassic mClassic rfl

/-! ## C7: `get_structured_data` -/

/-- C7: `get_structured_data` emits a group exactly for each series with a
non-empty variant list (empty series are omitted); each emitted group's
variant list is a permutation of that series's list sorted by the composite
key (size, fuel_type, accent) under lexicographic string ordering, its
`series_name` is the series key with the first letter capitalized, its
`total_variants` is that series's count; the metadata's `total_series` is
the number of emitted (non-empty) groups and `total_variants` is the total
variant count across all four series. -/
theorem get_structured_data_spec (m : ZLineRangeSeriesManager) :
    (get_structured_data m).total_series = (get_structured_data m).range_series.length
    ∧ (get_structured_data m).total_variants
        = m.paramount.length + m.classic.length + m.select.length + m.unknown.length
    ∧ (∀ p ∈ (get_structured_data m).range_series,
        ∃ vs, (p.1, vs) ∈ seriesItems m ∧ vs ≠ []
          ∧ List.Perm p.2.variants vs
          ∧ List.Sorted keyLe p.2.variants
          ∧ p.2.series_name = pyCapitalize p.1
          ∧ p.2.total_variants = vs.length
          ∧ p.2.variants ≠ [])
    ∧ (∀ kv ∈ seriesItems m, kv.2 ≠ [] →
        ∃ g, (kv.1, g) ∈ (get_structured_data m).range_series) := by
  refine ⟨by simp [get_structured_data], ?_, ?_, ?_⟩
  · simp [get_structured_data, seriesItems]
    omega
  · intro p hp
    obtain ⟨q, hq, rfl⟩ := List.mem_map.mp hp
    have hq' := List.mem_filter.mp hq
    have hne : q.2 ≠ [] := by
      have h2 := hq'.2
      simp only [Bool.not_eq_true'] at h2
      exact fun h0 => by simp [h0] at h2
    refine ⟨q.2, hq'.1, hne, List.perm_insertionSort keyLe q.2,
      List.sorted_insertionSort keyLe q.2, rfl, rfl, ?_⟩
    intro h0
    have h0' : List.insertionSort keyLe q.2 = [] := h0
    have hperm := List.perm_insertionSort keyLe q.2
    rw [h0'] at hperm
    exact hne hperm.symm.eq_nil
  · intro kv hkv hne
    exact ⟨_, List.mem_map.mpr ⟨kv, List.mem_filter.mpr ⟨hkv, by simp [hne]⟩, rfl⟩⟩

/-- Witness for C7: a manager with one `unknown` variant emits an `unknown`
group. -/
theorem get_structured_data_spec_witness :
    ∃ g, (chars "unknown", g) ∈ (get_structured_data mUnknown).range_series :=
  (get_structured_data_spec mUnknown).2.2.2 (chars "unknown", [vClassic]) (by decide)
    (by decide)

/-! ## Traversal helpers -/

theorem crawlRun_succ (A : Adapter) (maxUrls fuel : Nat) (s : LoopState) :
    crawlRun A maxUrls (fuel + 1) s
      = match s.queue with
        | [] => s
        | u :: rest =>
          if s.visited.length < maxUrls then crawlRun A maxUrls fuel (crawlIter A s u rest)
          else s := rfl

theorem crawlRun_stopped (A : Adapter) (maxUrls e : Nat) (s : LoopState)
    (h : s.queue = [] ∨ ¬s.visited.length < maxUrls) :
    crawlRun A maxUrls e s = s := by
  cases e with
  | zero => rfl
  | succ e =>
    rw [crawlRun_succ]
    cases hq : s.queue with
    | nil => rfl
    | cons u rest =>
      rcases h with h | h
      · rw [hq] at h
        exact absurd h (by simp)
      · show (if s.visited.length < maxUrls then crawlRun A maxUrls e (crawlIter A s u rest)
            else s) = s
        rw [if_neg h]

theorem crawlRun_add (A : Adapter) (maxUrls : Nat) :
    ∀ f e s, crawlRun A maxUrls (f + e) s = crawlRun A maxUrls e (crawlRun A maxUrls f s) := by
  intro f
  induction f with
  | zero =>
    intro e s
    rw [Nat.zero_add]
    rfl
  | succ f ih =>
    intro e s
    rw [Nat.succ_add, crawlRun_succ, crawlRun_succ]
    cases hq : s.queue with
    | nil => exact (crawlRun_stopped A maxUrls e s (Or.inl hq)).symm
    | cons u rest =>
      show (if s.visited.length < maxUrls then crawlRun A maxUrls (f + e) (crawlIter A s u rest)
          else s)
        = crawlRun A maxUrls e
            (if s.visited.length < maxUrls then crawlRun A maxUrls f (crawlIter A s u rest)
             else s)
      by_cases hlen : s.visited.length < maxUrls
      · rw [if_pos hlen, if_pos hlen, ih]
      · rw [if_neg hlen, if_neg hlen]
        exact (crawlRun_stopped A maxUrls e s (Or.inr hlen)).symm

theorem enqueueAll_cons (visited queue : List Url) (u : Url) (us : List Url) :
    enqueueAll visited queue (u :: us)
      = enqueueAll visited (if u ∈ visited ∨ u ∈ queue then queue else queue ++ [u]) us := rfl

theorem enqueueAll_nodup_disj (visited : List Url) :
    ∀ (urls queue : List Url), queue.Nodup → (∀ x ∈ queue, x ∉ visited) →
      (enqueueAll visited queue urls).Nodup
        ∧ ∀ x ∈ enqueueAll visited queue urls, x ∉ visited := by
  intro urls
  induction urls with
  | nil => exact fun q hq hd => ⟨hq, hd⟩
  | cons u us ih =>
    intro q hq hd
    rw [enqueueAll_cons]
    by_cases hc : u ∈ visited ∨ u ∈ q
    · rw [if_pos hc]
      exact ih q hq hd
    · rw [if_neg hc]
      push_neg at hc
      refine ih (q ++ [u]) ?_ ?_
      · rw [List.nodup_append]
        refine ⟨hq, List.nodup_singleton u, ?_⟩
        intro a ha hb
        rw [List.mem_singleton] at hb
        subst hb
        exact hc.2 ha
      · intro x hx
        rcases List.mem_append.mp hx with h | h
        · exact hd x h
        · rw [List.mem_singleton] at h
          subst h
          exact hc.1

theorem enqueueAll_mem (visited : List Url) :
    ∀ (urls queue : List Url) (x : Url), x ∈ enqueueAll visited queue urls →
      x ∈ queue ∨ (x ∈ urls ∧ x ∉ visited) := by
  intro urls
  induction urls with
  | nil => exact fun q x h => Or.inl h
  | cons u us ih =>
    intro q x h
    rw [enqueueAll_cons] at h
    rcases ih _ x h with h' | h'
    · by_cases hc : u ∈ visited ∨ u ∈ q
      · rw [if_pos hc] at h'
        exact Or.inl h'
      · rw [if_neg hc] at h'
        push_neg at hc
        rcases List.mem_append.mp h' with h2 | h2
        · exact Or.inl h2
        · rw [List.mem_singleton] at h2
          subst h2
          exact Or.inr ⟨List.mem_cons_self x us, hc.1⟩
    · exact Or.inr ⟨List.mem_cons_of_mem u h'.1, h'.2⟩

theorem crawlIter_cases (A : Adapter) (s : LoopState) (u : Url) (rest : List Url)
    (h : u ∉ s.visited) :
    (crawlIter A s u rest).visited = s.visited ++ [u]
    ∧ (crawlIter A s u rest).fetched = s.fetched ++ [u]
    ∧ ((crawlIter A s u rest).queue = rest
        ∨ ∃ d, (crawlIter A s u rest).queue
            = enqueueAll (s.visited ++ [u]) rest (uniqueUrls d)) := by
  unfold crawlIter
  rw [if_neg h]
  cases A u with
  | fail => exact ⟨rfl, rfl, Or.inl rfl⟩
  | badContent => exact ⟨rfl, rfl, Or.inl rfl⟩
  | ok d =>
    dsimp only
    cases add_variant s.mgr (buildVariantData u d) with
    | error e => exact ⟨rfl, rfl, Or.inl rfl⟩
    | ok m' => exact ⟨rfl, rfl, Or.inr ⟨d, rfl⟩⟩

theorem crawlIter_inv (A : Adapter) (maxUrls : Nat) (s : LoopState) (u : Url)
    (rest : List Url) (hq : s.queue = u :: rest) (hlen : s.visited.length < maxUrls)
    (hinv : CrawlInv maxUrls s) : CrawlInv maxUrls (crawlIter A s u rest) := by
  obtain ⟨hnd, hfv, _, hqnd, hdisj⟩ := hinv
  have hu_nvis : u ∉ s.visited := hdisj u (by rw [hq]; exact List.mem_cons_self u rest)
  rw [hq] at hqnd
  have hu_nrest : u ∉ rest := (List.nodup_cons.mp hqnd).1
  have hrest_nd : rest.Nodup := (List.nodup_cons.mp hqnd).2
  have hrest_disj : ∀ x ∈ rest, x ∉ s.visited := fun x hx =>
    hdisj x (by rw [hq]; exact List.mem_cons_of_mem u hx)
  have hnd' : (s.visited ++ [u]).Nodup := by
    rw [List.nodup_append]
    refine ⟨hnd, List.nodup_singleton u, ?_⟩
    intro a ha hb
    rw [List.mem_singleton] at hb
    subst hb
    exact hu_nvis ha
  have hlen' : (s.visited ++ [u]).length ≤ maxUrls := by
    rw [List.length_append, List.length_singleton]
    omega
  have hrest_disj' : ∀ x ∈ rest, x ∉ s.visited ++ [u] := by
    intro x hx hmem
    rcases List.mem_append.mp hmem with h | h
    · exact hrest_disj x hx h
    · rw [List.mem_singleton] at h
      subst h
      exact hu_nrest hx
  obtain ⟨hvis, hfet, hque⟩ := crawlIter_cases A s u rest hu_nvis
  refine ⟨hvis ▸ hnd', ?_, hvis ▸ hlen', ?_, ?_⟩
  · rw [hvis, hfet, hfv]
  · rcases hque with h | ⟨d, h⟩
    · rw [h]
      exact hrest_nd
    · rw [h]
      exact (enqueueAll_nodup_disj _ _ _ hrest_nd hrest_disj').1
  · rcases hque with h | ⟨d, h⟩
    · rw [h, hvis]
      exact hrest_disj'
    · rw [h, hvis]
      exact (enqueueAll_nodup_disj _ _ _ hrest_nd hrest_disj').2

theorem crawlRun_inv (A : Adapter) (maxUrls : Nat) :
    ∀ (fuel : Nat) (s : LoopState), CrawlInv maxUrls s →
      CrawlInv maxUrls (crawlRun A maxUrls fuel s) := by
  intro fuel
  induction fuel with
  | zero => exact fun s hs => hs
  | succ fuel ih =>
    intro s hs
    rw [crawlRun_succ]
    cases hq : s.queue with
    | nil => exact hs
    | cons u rest =>
      dsimp only
      by_cases hlen : s.visited.length < maxUrls
      · rw [if_pos hlen]
        exact ih _ (crawlIter_inv A maxUrls s u rest hq hlen hs)
      · rw [if_neg hlen]
        exact hs

theorem crawlRun_visited_mono (A : Adapter) (maxUrls : Nat) :
    ∀ (fuel : Nat) (s : LoopState) (u : Url),
      u ∈ s.visited → u ∈ (crawlRun A maxUrls fuel s).visited := by
  intro fuel
  induction fuel with
  | zero => exact fun s u h => h
  | succ fuel ih =>
    intro s u h
    rw [crawlRun_succ]
    cases hq : s.queue with
    | nil => exact h
    | cons v rest =>
      dsimp only
      by_cases hlen : s.visited.length < maxUrls
      · rw [if_pos hlen]
        apply ih
        by_cases hv : v ∈ s.visited
        · unfold crawlIter
          rw [if_pos hv]
          exact h
        · rw [(crawlIter_cases A s v rest hv).1]
          exact List.mem_append.mpr (Or.inl h)
      · rw [if_neg hlen]
        exact h

theorem initState_inv (startUrl : Url) (maxUrls : Nat) :
    CrawlInv maxUrls (initState startUrl) :=
  ⟨List.nodup_nil, rfl, by simp [initState], List.nodup_singleton _, by simp [initState]⟩

/-! ## C1: the visit cap and no refetching -/

/-- C1: for every start URL, cap and adapter behaviour (hence for every
sequence of fetch results), the traversal fetches at most `maxUrls` URLs,
all pairwise distinct — no URL is ever fetched twice.  `fetched` records, in
order, every URL the loop hands to `crawler.arun`. -/
theorem get_all_variants_demo_cap (startUrl : Url) (A : Adapter) (maxUrls fuel : Nat) :
    (get_all_variants_demo startUrl A maxUrls fuel).fetched.Nodup
    ∧ (get_all_variants_demo startUrl A maxUrls fuel).fetched.length ≤ maxUrls := by
  obtain ⟨hnd, hfv, hle, _, _⟩ :=
    crawlRun_inv A maxUrls fuel (initState startUrl) (initState_inv startUrl maxUrls)
  exact ⟨hfv ▸ hnd, hfv ▸ hle⟩

/-! ## C8: frontier invariants -/

/-- C8: throughout every traversal run, a discovered URL is enqueued only if
absent from both the visited set and the queue at enqueue time (last
conjunct, about the enqueue loop `enqueueAll` itself); consequently, after
any number of iterations the queue holds no duplicates and is disjoint from
the visited set (so a URL enters the queue at most once before being
dequeued), and the visited set only grows as the run continues. -/
theorem get_all_variants_demo_frontier (startUrl : Url) (A : Adapter)
    (maxUrls fuel extra : Nat) :
    (get_all_variants_demo startUrl A maxUrls fuel).queue.Nodup
    ∧ (∀ u ∈ (get_all_variants_demo startUrl A maxUrls fuel).queue,
        u ∉ (get_all_variants_demo startUrl A maxUrls fuel).visited)
    ∧ (∀ u ∈ (get_all_variants_demo startUrl A maxUrls fuel).visited,
        u ∈ (get_all_variants_demo startUrl A maxUrls (fuel + extra)).visited)
    ∧ (∀ (visited queue urls : List Url) (x : Url), x ∈ enqueueAll visited queue urls →
        x ∈ queue ∨ (x ∈ urls ∧ x ∉ visited)) := by
  obtain ⟨_, _, _, hqnd, hdisj⟩ :=
    crawlRun_inv A maxUrls fuel (initState startUrl) (initState_inv startUrl maxUrls)
  refine ⟨hqnd, hdisj, ?_, fun visited queue urls x h => enqueueAll_mem visited urls queue x h⟩
  intro u hu
  show u ∈ (crawlRun A maxUrls (fuel + extra) (initState startUrl)).visited
  rw [crawlRun_add]
  exact crawlRun_visited_mono A maxUrls extra _ u hu

/-- Witness for C8: a run whose start page discovers `/b` leaves `/b` queued
and unvisited. -/
theorem get_all_variants_demo_frontier_witness :
    chars "/b" ∉ (get_all_variants_demo (chars "/a") adapterDisc 1 1).visited :=
  (get_all_variants_demo_frontier (chars "/a") adapterDisc 1 1 0).2.1 (chars "/b") (by decide)

/-! ## C10: missing titles -/

/-- C10 counterexample: a successfully fetched page whose content lacks a
`title` does get `"N/A"` substituted, but the record is NOT always ingested:
when the same page carries an unparseable price, `add_variant` raises, the
`except` block swallows the error, and the manager is left unchanged even
though the page was fetched. -/
theorem no_title_counterexample :
    pageBadPrice.title = none
    ∧ (buildVariantData (chars "/x") pageBadPrice).title = some (chars "N/A")
    ∧ add_variant ZLineRangeSeriesManager.init (buildVariantData (chars "/x") pageBadPrice)
        = .error ()
    ∧ (get_all_variants_demo (chars "/x") adapterBadPrice 10 5).fetched = [chars "/x"]
    ∧ (get_all_variants_demo (chars "/x") adapterBadPrice 10 5).mgr
        = ZLineRangeSeriesManager.init := ⟨rfl, rfl, rfl, rfl, rfl⟩

/-- C10 amended: for every successfully fetched page whose extracted content
lacks a `title` field, the traversal substitutes the literal `"N/A"` as the
title before ingestion; provided the page's price coerces (it is missing or
integer-parseable), the record is ingested and lands in series `unknown`
with sku `""` — if the price is present and unparseable, `add_variant`
raises instead and the page is skipped. -/
theorem no_title_ingestion (u : Url) (d : PageData) (m : ZLineRangeSeriesManager) (p : Int)
    (htitle : d.title = none)
    (hp : priceCoerce (buildVariantData u d).price = some p) :
    (buildVariantData u d).title = some (chars "N/A")
    ∧ add_variant m (buildVariantData u d)
        = .ok (addToSeries m (chars "unknown") (mkVariant (buildVariantData u d) p))
    ∧ (mkVariant (buildVariantData u d) p).title = chars "N/A"
    ∧ (mkVariant (buildVariantData u d) p).sku = []
    ∧ (addToSeries m (chars "unknown") (mkVariant (buildVariantData u d) p)).unknown
        = m.unknown ++ [mkVariant (buildVariantData u d) p]
    ∧ (addToSeries m (chars "unknown") (mkVariant (buildVariantData u d) p)).paramount
        = m.paramount
    ∧ (addToSeries m (chars "unknown") (mkVariant (buildVariantData u d) p)).classic
        = m.classic
    ∧ (addToSeries m (chars "unknown") (mkVariant (buildVariantData u d) p)).select
        = m.select := by
  have ht : (buildVariantData u d).title = some (chars "N/A") := by
    simp [buildVariantData, htitle]
  have htgetD : (buildVariantData u d).title.getD [] = chars "N/A" := by
    rw [ht]
    rfl
  have hdet : detect_series ((buildVariantData u d).title.getD []) = chars "unknown" := by
    rw [htgetD]
    decide
  refine ⟨ht, ?_, ?_, ?_, rfl, rfl, rfl, rfl⟩
  · rw [add_variant_eq_ok m _ p hp, hdet]
  · show (buildVariantData u d).title.getD [] = chars "N/A"
    exact htgetD
  · show extract_sku_from_title ((buildVariantData u d).title.getD []) = []
    rw [htgetD]
    decide

/-- Witness for C10 (amended): a concrete page with no title and no price. -/
theorem no_title_ingestion_witness :
    (buildVariantData (chars "/x") pageNoTitle).title = some (chars "N/A")
    ∧ add_variant ZLineRangeSeriesManager.init (buildVariantData (chars "/x") pageNoTitle)
        = .ok (addToSeries ZLineRangeSeriesManager.init (chars "unknown")
            (mkVariant (buildVariantData (chars "/x") pageNoTitle) 0))
    ∧ (mkVariant (buildVariantData (chars "/x") pageNoTitle) 0).title = chars "N/A"
    ∧ (mkVariant (buildVariantData (chars "/x") pageNoTitle) 0).sku = []
    ∧ (addToSeries ZLineRangeSeriesManager.init (chars "unknown")
          (mkVariant (buildVariantData (chars "/x") pageNoTitle) 0)).unknown
        = ZLineRangeSeriesManager.init.unknown
          ++ [mkVariant (buildVariantData (chars "/x") pageNoTitle) 0]
    ∧ (addToSeries ZLineRangeSeriesManager.init (chars "unknown")
          (mkVariant (buildVariantData (chars "/x") pageNoTitle) 0)).paramount
        = ZLineRangeSeriesManager.init.paramount
    ∧ (addToSeries ZLineRangeSeriesManager.init (chars "unknown")
          (mkVariant (buildVariantData (chars "/x") pageNoTitle) 0)).classic
        = ZLineRangeSeriesManager.init.classic
    ∧ (addToSeries ZLineRangeSeriesManager.init (chars "unknown")
          (mkVariant (buildVariantData (chars "/x") pageNoTitle) 0)).select
        = ZLineRangeSeriesManager.init.select :=
  no_title_ingestion (chars "/x") pageNoTitle ZLineRangeSeriesManager.init 0 rfl rfl

end Zipline
